import Mathlib

/-!
# ChatApp backend handlers: a shallow embedding

This file embeds the room-scoped state-changing handlers of the ChatApp
backend (`join-room`, `leave-room`, `active-users/:roomId`, `send-message`,
`messages/:roomId`) and proves properties of the presence tracker and the
message log.

Modelling conventions:

* Each handler reads and writes the single key `room:{roomId}:users` or
  `room:{roomId}:messages` of the key-value store.  The store is therefore
  modelled per key: a handler receives the current value under its key as an
  `Option (List _)` (`none` when the key is absent) and returns the new value
  together with its response.  `kv.get(k) || []` becomes `store.getD []`.
* `Date.now()` is passed in as an explicit `now : Int` parameter; the clock
  does not advance while a single handler runs, so the two `Date.now()`
  calls inside the `send-message` handler both observe `now`.
* In JavaScript an absent JSON field and the empty string are both falsy
  under `!x`, so required string fields are modelled as `String` with the
  empty string standing for both "missing" and "empty".  The optional
  `imageUrl` field is modelled as `Option String` because its presence in
  the stored message is observable; `none` stands for absent/null/undefined.
* A handler response is `Except String ρ`: `.error msg` is the JSON 400
  error response, `.ok r` the success response.
-/

namespace ChatApp

/-- One entry of the per-room membership list written by the `join-room`
handler: `{ userId, username, joinedAt: Date.now() }`. -/
structure RoomMembership where
  userId : String
  username : String
  joinedAt : Int
deriving DecidableEq

/-- One entry of the per-room message list built by the `send-message`
handler. -/
structure ChatMessage where
  id : String
  userId : String
  username : String
  message : String
  imageUrl : Option String
  timestamp : Int
deriving DecidableEq

/-- The freshness window used by the `active-users` handler:
`5 * 60 * 1000` milliseconds. -/
def freshnessWindow : Int := 5 * 60 * 1000

/-- The message-retention cap of the `send-message` handler. -/
def messageCap : Nat := 100

/-- The `join-room` handler (Announce).  Validates the three required
fields, then removes any existing entry with the same `userId` from the
loaded list, appends a fresh entry with `joinedAt` set to the current time,
and persists the result. -/
def joinRoom (roomId username userId : String) (now : Int)
    (store : Option (List RoomMembership)) :
    Except String Unit × Option (List RoomMembership) :=
  if roomId = "" ∨ username = "" ∨ userId = "" then
    (.error "Missing required fields", store)
  else
    let users := store.getD []
    let filteredUsers := users.filter (fun u => u.userId ≠ userId)
    let newUser : RoomMembership := ⟨userId, username, now⟩
    (.ok (), some (filteredUsers ++ [newUser]))

/-- The `leave-room` handler (Withdraw).  Validates the two required
fields, then persists the loaded list with every entry matching `userId`
removed. -/
def leaveRoom (roomId userId : String)
    (store : Option (List RoomMembership)) :
    Except String Unit × Option (List RoomMembership) :=
  if roomId = "" ∨ userId = "" then
    (.error "Missing required fields", store)
  else
    let users := store.getD []
    (.ok (), some (users.filter (fun u => u.userId ≠ userId)))

/-- The `active-users/:roomId` handler (ListActive).  Filters the loaded
list to the entries with `joinedAt > now - 5 minutes`, writes the filtered
list back only when its length differs from the loaded list's, and returns
the filtered list.  The result is `(returned list, new store value, whether
a store write was issued)`. -/
def activeUsers (now : Int) (store : Option (List RoomMembership)) :
    List RoomMembership × Option (List RoomMembership) × Bool :=
  let users := store.getD []
  let fiveMinutesAgo := now - freshnessWindow
  let active := users.filter (fun u => fiveMinutesAgo < u.joinedAt)
  if active.length ≠ users.length then
    (active, some active, true)
  else
    (active, store, false)

/-- The JSON body of a `send-message` request together with the observed
current time. -/
structure SendReq where
  roomId : String
  username : String
  userId : String
  message : String
  imageUrl : Option String
  now : Int
deriving DecidableEq

/-- The effect of `imageUrl: imageUrl || undefined`: a falsy value
(absent, null or the empty string) becomes absent, anything else is kept. -/
def normalizeImageUrl : Option String → Option String
  | none => none
  | some s => if s = "" then none else some s

/-- The message object the `send-message` handler constructs:
`id` is `Date.now()` interpolated with the sender id, `imageUrl` is
normalized by falsiness, and `timestamp` is `Date.now()`. -/
def mkMessage (r : SendReq) : ChatMessage :=
  { id := toString r.now ++ "-" ++ r.userId
    userId := r.userId
    username := r.username
    message := r.message
    imageUrl := normalizeImageUrl r.imageUrl
    timestamp := r.now }

/-- The `send-message` handler (Append).  Validates `roomId`, `username`,
`userId` and `message`, appends the constructed message to the loaded list,
truncates the front so at most 100 messages remain
(`messages.splice(0, messages.length - 100)`), persists, and returns the
constructed message. -/
def sendMessage (r : SendReq) (store : Option (List ChatMessage)) :
    Except String ChatMessage × Option (List ChatMessage) :=
  if r.roomId = "" ∨ r.username = "" ∨ r.userId = "" ∨ r.message = "" then
    (.error "Missing required fields", store)
  else
    let messages := store.getD []
    let newMessage := mkMessage r
    let pushed := messages ++ [newMessage]
    let capped :=
      if pushed.length > messageCap then pushed.drop (pushed.length - messageCap)
      else pushed
    (.ok newMessage, some capped)

/-- The `messages/:roomId` handler (List): returns the stored list, or the
empty list when the key is absent. -/
def getMessages (store : Option (List ChatMessage)) : List ChatMessage :=
  store.getD []

/-- A sequence of `send-message` calls against the same room, each
threading the store value left by the previous one. -/
def sendAll (rs : List SendReq) (store : Option (List ChatMessage)) :
    Option (List ChatMessage) :=
  rs.foldl (fun s r => (sendMessage r s).2) store

/-- The validation predicate of the `send-message` handler, in positive
form. -/
def SendReq.Valid (r : SendReq) : Prop :=
  r.roomId ≠ "" ∧ r.username ≠ "" ∧ r.userId ≠ "" ∧ r.message ≠ ""

instance (r : SendReq) : Decidable r.Valid := by
  unfold SendReq.Valid; infer_instance

/-- The last `n` elements of a list (the value `splice(0, len - n)` leaves
behind). -/
def lastN (n : Nat) (l : List α) : List α := l.drop (l.length - n)

/-- 101 concrete valid `send-message` requests against one room, with
distinct send times. -/
def c1Reqs : List SendReq :=
  (List.range 101).map fun i =>
    { roomId := "general", username := "alice", userId := "u1",
      message := "hi", imageUrl := none, now := (i : Int) }

/-- A concrete membership entry whose `joinedAt` is exactly five minutes
before the observation time `1000000` used in witnesses. -/
def wUser : RoomMembership := ⟨"u1", "alice", 700000⟩

/-- A concrete stored membership list holding `wUser` and one fresh
entry. -/
def wStore : Option (List RoomMembership) := some [wUser, ⟨"u2", "bob", 999999⟩]

/-- A concrete valid `send-message` request carrying an image. -/
def wReq : SendReq :=
  { roomId := "general", username := "alice", userId := "u1",
    message := "hi", imageUrl := some "https://img", now := 1234 }

theorem lastN_of_le {n : Nat} {l : List α} (h : l.length ≤ n) : lastN n l = l := by
  unfold lastN
  rw [Nat.sub_eq_zero_of_le h, List.drop_zero]

theorem lastN_length_le (n : Nat) (l : List α) : (lastN n l).length ≤ n := by
  unfold lastN
  rw [List.length_drop]
  omega

theorem lastN_eq_reverse (n : Nat) (l : List α) :
    lastN n l = (l.reverse.take n).reverse := by
  unfold lastN
  rw [List.take_reverse, List.reverse_reverse]

theorem take_append_take (n : Nat) (x y : List α) :
    List.take n (y ++ List.take n x) = List.take n (y ++ x) := by
  rw [List.take_append_eq_append_take, List.take_append_eq_append_take, List.take_take]
  congr 2
  omega

theorem lastN_append_lastN (n : Nat) (a b : List α) :
    lastN n (lastN n a ++ b) = lastN n (a ++ b) := by
  rw [lastN_eq_reverse n a]
  rw [lastN_eq_reverse n ((a.reverse.take n).reverse ++ b), lastN_eq_reverse n (a ++ b)]
  rw [List.reverse_append, List.reverse_reverse, List.reverse_append]
  rw [take_append_take]

theorem mem_lastN_concat {n : Nat} (hn : 0 < n) (l : List α) (m : α) :
    m ∈ lastN n (l ++ [m]) := by
  unfold lastN
  rw [List.drop_append_eq_append_drop]
  have h0 : (l ++ [m]).length - n - l.length = 0 := by
    rw [List.length_append]
    simp only [List.length_cons, List.length_nil]
    omega
  rw [h0, List.drop_zero]
  exact List.mem_append_right _ (by simp)

theorem sendMessage_valid {r : SendReq} (h : r.Valid) (l : List ChatMessage) :
    sendMessage r (some l) =
      (.ok (mkMessage r), some (lastN messageCap (l ++ [mkMessage r]))) := by
  obtain ⟨h1, h2, h3, h4⟩ := h
  unfold sendMessage
  rw [if_neg (by tauto)]
  simp only [Option.getD_some]
  by_cases hlen : (l ++ [mkMessage r]).length > messageCap
  · rw [if_pos hlen]
    rfl
  · rw [if_neg hlen, lastN_of_le (by omega)]

theorem sendMessage_none {r : SendReq} (h : r.Valid) :
    sendMessage r none = sendMessage r (some []) := by
  obtain ⟨h1, h2, h3, h4⟩ := h
  unfold sendMessage
  rw [if_neg (by tauto), if_neg (by tauto)]
  rfl

theorem sendAll_some (rs : List SendReq) (hval : ∀ r ∈ rs, r.Valid)
    (l : List ChatMessage) (hl : l.length ≤ messageCap) :
    sendAll rs (some l) = some (lastN messageCap (l ++ rs.map mkMessage)) := by
  induction rs generalizing l with
  | nil =>
    simp only [sendAll, List.foldl_nil, List.map_nil, List.append_nil]
    rw [lastN_of_le hl]
  | cons r rs ih =>
    have hr : r.Valid := hval r (by simp)
    have hrs : ∀ x ∈ rs, x.Valid := fun x hx => hval x (by simp [hx])
    show sendAll rs (sendMessage r (some l)).2 = _
    rw [sendMessage_valid hr l]
    rw [ih hrs _ (lastN_length_le _ _), lastN_append_lastN]
    rw [List.append_assoc]
    rfl

theorem sendAll_from_empty (rs : List SendReq) (hval : ∀ r ∈ rs, r.Valid)
    (hne : rs ≠ []) :
    sendAll rs none = some (lastN messageCap (rs.map mkMessage)) := by
  cases rs with
  | nil => exact absurd rfl hne
  | cons r rs =>
    have hr : r.Valid := hval r (by simp)
    have hrs : ∀ x ∈ rs, x.Valid := fun x hx => hval x (by simp [hx])
    show sendAll rs (sendMessage r none).2 = _
    rw [sendMessage_none hr, sendMessage_valid hr []]
    rw [sendAll_some rs hrs _ (lastN_length_le _ _), lastN_append_lastN]
    rfl

/-- C1: starting from a fresh room, a sequence of more than 100 valid
`send-message` calls leaves exactly the last 100 constructed messages, in
send order; the earlier messages are absent from the list returned by the
`messages` handler; and after exactly 101 calls the head of the returned
list is the message of the second call. -/
theorem sendLog_keeps_last_100 (rs : List SendReq)
    (hval : ∀ r ∈ rs, r.Valid) (hlen : 100 < rs.length)
    (hnd : (rs.map SendReq.now).Nodup) :
    getMessages (sendAll rs none) = (rs.map mkMessage).drop (rs.length - 100)
    ∧ (∀ m ∈ (rs.map mkMessage).take (rs.length - 100),
        m ∉ getMessages (sendAll rs none))
    ∧ (rs.length = 101 →
        (getMessages (sendAll rs none)).head? = (rs.map mkMessage)[1]?) := by
  have hne : rs ≠ [] := by
    intro h
    rw [h] at hlen
    simp only [List.length_nil] at hlen
    omega
  have key : getMessages (sendAll rs none)
      = (rs.map mkMessage).drop (rs.length - 100) := by
    rw [sendAll_from_empty rs hval hne]
    show lastN messageCap (rs.map mkMessage) = _
    unfold lastN messageCap
    rw [List.length_map]
  refine ⟨key, ?_, ?_⟩
  · have hnd2 : (rs.map mkMessage).Nodup := by
      refine List.Nodup.of_map ChatMessage.timestamp ?_
      rw [List.map_map]
      exact hnd
    intro m hm hmem
    rw [key] at hmem
    exact List.disjoint_take_drop hnd2 le_rfl hm hmem
  · intro h101
    rw [key, h101]
    have hsub : (101 : Nat) - 100 = 1 := by norm_num
    rw [hsub, List.head?_drop]

/-- Witness for C1: the hypotheses hold at 101 concrete requests. -/
theorem sendLog_keeps_last_100_witness :
    (∀ r ∈ c1Reqs, r.Valid) ∧ 100 < c1Reqs.length ∧ (c1Reqs.map SendReq.now).Nodup
    ∧ (getMessages (sendAll c1Reqs none) = (c1Reqs.map mkMessage).drop (c1Reqs.length - 100)
      ∧ (∀ m ∈ (c1Reqs.map mkMessage).take (c1Reqs.length - 100),
          m ∉ getMessages (sendAll c1Reqs none))
      ∧ (c1Reqs.length = 101 →
          (getMessages (sendAll c1Reqs none)).head? = (c1Reqs.map mkMessage)[1]?)) :=
  ⟨by decide, by decide, by decide,
    sendLog_keeps_last_100 c1Reqs (by decide) (by decide) (by decide)⟩

theorem activeUsers_fst (now : Int) (store : Option (List RoomMembership)) :
    (activeUsers now store).1
      = (store.getD []).filter (fun u => now - freshnessWindow < u.joinedAt) := by
  unfold activeUsers
  dsimp only
  split <;> rfl

/-- C2: `active-users` keeps a loaded entry exactly when its `joinedAt` is
strictly newer than `now - 5 minutes`; an entry at or past that cutoff —
in particular one exactly five minutes old — is excluded. -/
theorem listActive_excludes_stale (now : Int) (store : Option (List RoomMembership))
    (u : RoomMembership) (hu : u ∈ store.getD []) :
    (u ∈ (activeUsers now store).1 ↔ now - freshnessWindow < u.joinedAt)
    ∧ (u.joinedAt ≤ now - freshnessWindow → u ∉ (activeUsers now store).1) := by
  have hfst := activeUsers_fst now store
  constructor
  · rw [hfst, List.mem_filter, decide_eq_true_eq]
    exact ⟨fun h => h.2, fun h => ⟨hu, h⟩⟩
  · intro hle hmem
    rw [hfst, List.mem_filter, decide_eq_true_eq] at hmem
    omega

/-- Witness for C2: at observation time `1000000`, the entry whose
`joinedAt` is exactly `700000` (five minutes before) is excluded. -/
theorem listActive_excludes_stale_witness :
    wUser ∈ wStore.getD []
    ∧ ((wUser ∈ (activeUsers 1000000 wStore).1 ↔
          1000000 - freshnessWindow < wUser.joinedAt)
      ∧ (wUser.joinedAt ≤ 1000000 - freshnessWindow →
          wUser ∉ (activeUsers 1000000 wStore).1)) :=
  ⟨by decide, listActive_excludes_stale 1000000 wStore wUser (by decide)⟩

/-- C3: after any `join-room` call the membership list holds exactly one
entry for the announced `userId`, carrying the announced `username` and the
announcement time; `active-users` observed at any time within the
freshness window afterwards also reports exactly that one entry for the
user. -/
theorem announce_single_membership (roomId username userId : String) (now : Int)
    (store : Option (List RoomMembership))
    (h1 : roomId ≠ "") (h2 : username ≠ "") (h3 : userId ≠ "") :
    (((joinRoom roomId username userId now store).2.getD []).filter
        (fun u => u.userId = userId)) = [⟨userId, username, now⟩]
    ∧ ∀ t : Int, t - freshnessWindow < now →
        ((activeUsers t (joinRoom roomId username userId now store).2).1.filter
            (fun u => u.userId = userId)) = [⟨userId, username, now⟩] := by
  have hstore : (joinRoom roomId username userId now store).2
      = some ((store.getD []).filter (fun u => u.userId ≠ userId)
          ++ [⟨userId, username, now⟩]) := by
    unfold joinRoom
    rw [if_neg (by tauto)]
  constructor
  · rw [hstore]
    simp only [Option.getD_some]
    rw [List.filter_append, List.filter_filter, List.filter_eq_nil_iff.mpr, List.nil_append]
    · simp
    · intro a _
      simp only [Bool.and_eq_true, decide_eq_true_eq]
      tauto
  · intro t ht
    rw [hstore, activeUsers_fst]
    simp only [Option.getD_some]
    rw [List.filter_filter, List.filter_append, List.filter_filter,
      List.filter_eq_nil_iff.mpr, List.nil_append]
    · rw [List.filter_cons, List.filter_nil]
      simp [ht]
    · intro a _
      simp only [Bool.and_eq_true, decide_eq_true_eq]
      tauto

/-- Witness for C3 at a concrete prior store holding a stale duplicate of
the user. -/
theorem announce_single_membership_witness :
    ((((joinRoom "general" "alice" "u1" 1000 wStore).2.getD []).filter
        (fun u => u.userId = "u1")) = [⟨"u1", "alice", 1000⟩]
    ∧ ∀ t : Int, t - freshnessWindow < 1000 →
        ((activeUsers t (joinRoom "general" "alice" "u1" 1000 wStore).2).1.filter
            (fun u => u.userId = "u1")) = [⟨"u1", "alice", 1000⟩]) :=
  announce_single_membership "general" "alice" "u1" 1000 wStore
    (by decide) (by decide) (by decide)

/-- C6: `leave-room` always succeeds; withdrawing a user with no entry
leaves the stored list unchanged; and after a withdrawal `active-users`
never reports that user, at any observation time. -/
theorem withdraw_idempotent (roomId userId : String)
    (store : Option (List RoomMembership)) (h1 : roomId ≠ "") (h2 : userId ≠ "") :
    (leaveRoom roomId userId store).1 = .ok ()
    ∧ ((∀ u ∈ store.getD [], u.userId ≠ userId) →
        ((leaveRoom roomId userId store).2).getD [] = store.getD [])
    ∧ (∀ t : Int, ∀ u ∈ (activeUsers t (leaveRoom roomId userId store).2).1,
        u.userId ≠ userId) := by
  have hstore : leaveRoom roomId userId store
      = (.ok (), some ((store.getD []).filter (fun u => u.userId ≠ userId))) := by
    unfold leaveRoom
    rw [if_neg (by tauto)]
  refine ⟨by rw [hstore], ?_, ?_⟩
  · intro hall
    rw [hstore]
    simp only [Option.getD_some]
    rw [List.filter_eq_self]
    intro a ha
    simpa using hall a ha
  · intro t u hu
    rw [hstore, activeUsers_fst] at hu
    simp only [Option.getD_some] at hu
    rw [List.mem_filter] at hu
    have hmem := hu.1
    rw [List.mem_filter] at hmem
    simpa using hmem.2

/-- Witness for C6 at a concrete store that does not hold the withdrawn
user. -/
theorem withdraw_idempotent_witness :
    ((leaveRoom "general" "u9" wStore).1 = .ok ()
    ∧ ((∀ u ∈ wStore.getD [], u.userId ≠ "u9") →
        ((leaveRoom "general" "u9" wStore).2).getD [] = wStore.getD [])
    ∧ (∀ t : Int, ∀ u ∈ (activeUsers t (leaveRoom "general" "u9" wStore).2).1,
        u.userId ≠ "u9")) :=
  withdraw_idempotent "general" "u9" wStore (by decide) (by decide)

/-- C7: `active-users` returns the freshness-filtered list, issues a store
write exactly when the filtered list is shorter than the loaded one, and
leaves the stored value untouched when every loaded entry is fresh. -/
theorem listActive_lazy_eviction (now : Int) (store : Option (List RoomMembership)) :
    (activeUsers now store).1
      = (store.getD []).filter (fun u => now - freshnessWindow < u.joinedAt)
    ∧ ((activeUsers now store).2.2 = true ↔
        (activeUsers now store).1.length ≠ (store.getD []).length)
    ∧ ((activeUsers now store).2.2 = true →
        (activeUsers now store).2.1 = some ((activeUsers now store).1))
    ∧ ((activeUsers now store).2.2 = false → (activeUsers now store).2.1 = store)
    ∧ ((∀ u ∈ store.getD [], now - freshnessWindow < u.joinedAt) →
        (activeUsers now store).2.1 = store ∧ (activeUsers now store).2.2 = false) := by
  have hfst := activeUsers_fst now store
  by_cases hc : ((store.getD []).filter
      (fun u => now - freshnessWindow < u.joinedAt)).length ≠ (store.getD []).length
  · have hres : activeUsers now store
        = ((store.getD []).filter (fun u => now - freshnessWindow < u.joinedAt),
           some ((store.getD []).filter (fun u => now - freshnessWindow < u.joinedAt)),
           true) := by
      unfold activeUsers
      dsimp only
      rw [if_pos hc]
    rw [hres]
    refine ⟨rfl, by simpa using hc, fun _ => rfl, by simp, ?_⟩
    intro hall
    exfalso
    apply hc
    congr 1
    rw [List.filter_eq_self]
    intro a ha
    simpa using hall a ha
  · have hres : activeUsers now store
        = ((store.getD []).filter (fun u => now - freshnessWindow < u.joinedAt),
           store, false) := by
      unfold activeUsers
      dsimp only
      rw [if_neg hc]
    rw [hres]
    exact ⟨rfl, by simpa using hc, by simp, fun _ => rfl, fun _ => ⟨rfl, rfl⟩⟩

/-- Witness for C7 at a concrete store with one stale and one fresh
entry. -/
theorem listActive_lazy_eviction_witness :
    ((activeUsers 1000000 wStore).1
      = (wStore.getD []).filter (fun u => 1000000 - freshnessWindow < u.joinedAt)
    ∧ ((activeUsers 1000000 wStore).2.2 = true ↔
        (activeUsers 1000000 wStore).1.length ≠ (wStore.getD []).length)
    ∧ ((activeUsers 1000000 wStore).2.2 = true →
        (activeUsers 1000000 wStore).2.1 = some ((activeUsers 1000000 wStore).1))
    ∧ ((activeUsers 1000000 wStore).2.2 = false →
        (activeUsers 1000000 wStore).2.1 = wStore)
    ∧ ((∀ u ∈ wStore.getD [], 1000000 - freshnessWindow < u.joinedAt) →
        (activeUsers 1000000 wStore).2.1 = wStore
          ∧ (activeUsers 1000000 wStore).2.2 = false)) :=
  listActive_lazy_eviction 1000000 wStore

/-- C4: a valid `send-message` call returns the constructed message, whose
`id` is the send time interpolated with the sender id and whose
`timestamp` is that send time; the very same message value is retrievable
through the `messages` handler afterwards, and on a fresh room the list is
exactly that one message. -/
theorem append_returns_stored_message (r : SendReq) (store : Option (List ChatMessage))
    (h : r.Valid) :
    (sendMessage r store).1 = .ok (mkMessage r)
    ∧ (mkMessage r).id = toString r.now ++ "-" ++ r.userId
    ∧ (mkMessage r).timestamp = r.now
    ∧ mkMessage r ∈ getMessages (sendMessage r store).2
    ∧ (store = none → getMessages (sendMessage r store).2 = [mkMessage r]) := by
  refine ⟨?_, rfl, rfl, ?_, ?_⟩
  · cases store with
    | none => rw [sendMessage_none h, sendMessage_valid h]
    | some l => rw [sendMessage_valid h l]
  · cases store with
    | none =>
      rw [sendMessage_none h, sendMessage_valid h]
      exact mem_lastN_concat (by norm_num [messageCap]) [] (mkMessage r)
    | some l =>
      rw [sendMessage_valid h l]
      exact mem_lastN_concat (by norm_num [messageCap]) l (mkMessage r)
  · intro hnone
    rw [hnone, sendMessage_none h, sendMessage_valid h]
    show lastN messageCap ([] ++ [mkMessage r]) = [mkMessage r]
    rw [List.nil_append, lastN_of_le (by norm_num [messageCap])]

/-- Witness for C4 at a concrete request and a fresh room. -/
theorem append_returns_stored_message_witness :
    ((sendMessage wReq none).1 = .ok (mkMessage wReq)
    ∧ (mkMessage wReq).id = toString wReq.now ++ "-" ++ wReq.userId
    ∧ (mkMessage wReq).timestamp = wReq.now
    ∧ mkMessage wReq ∈ getMessages (sendMessage wReq none).2
    ∧ (none = (none : Option (List ChatMessage)) →
        getMessages (sendMessage wReq none).2 = [mkMessage wReq])) :=
  append_returns_stored_message wReq none (by decide)

/-- C8: the `messages` handler returns the stored list verbatim, and the
empty list when the room's key is absent. -/
theorem list_returns_stored_verbatim :
    (∀ l : List ChatMessage, getMessages (some l) = l)
    ∧ getMessages none = ([] : List ChatMessage) :=
  ⟨fun _ => rfl, rfl⟩

/-- C9: when a required field of `join-room` or `send-message` is empty
(or missing, which JavaScript's falsiness makes indistinguishable from
empty), the handler answers the validation error and the stored value is
untouched. -/
theorem validation_precedes_state_change
    (roomId username userId : String) (now : Int)
    (ustore : Option (List RoomMembership))
    (r : SendReq) (mstore : Option (List ChatMessage)) :
    (roomId = "" ∨ username = "" ∨ userId = "" →
      joinRoom roomId username userId now ustore
        = (.error "Missing required fields", ustore))
    ∧ (r.roomId = "" ∨ r.username = "" ∨ r.userId = "" ∨ r.message = "" →
      sendMessage r mstore = (.error "Missing required fields", mstore)) := by
  constructor
  · intro h
    unfold joinRoom
    rw [if_pos h]
  · intro h
    unfold sendMessage
    rw [if_pos h]

/-- Witness for C9 at a concrete request with an empty `username` field. -/
theorem validation_precedes_state_change_witness :
    (("general" : String) = "" ∨ ("" : String) = "" ∨ ("u1" : String) = "" →
      joinRoom "general" "" "u1" 1000 wStore
        = (.error "Missing required fields", wStore))
    ∧ (wReq.roomId = "" ∨ wReq.username = "" ∨ wReq.userId = "" ∨ wReq.message = "" →
      sendMessage wReq none = (.error "Missing required fields", none)) :=
  validation_precedes_state_change "general" "" "u1" 1000 wStore wReq none

theorem normalizeImageUrl_eq_some (o : Option String) (s : String) :
    normalizeImageUrl o = some s ↔ o = some s ∧ s ≠ "" := by
  cases o with
  | none => simp [normalizeImageUrl]
  | some v =>
    show (if v = "" then none else some v) = some s ↔ _
    by_cases hv : v = ""
    · rw [if_pos hv]
      constructor
      · intro h
        exact Option.noConfusion h
      · rintro ⟨hvs, hs⟩
        injection hvs with h2
        subst h2
        exact absurd hv hs
    · rw [if_neg hv]
      constructor
      · intro h
        injection h with h2
        subst h2
        exact ⟨rfl, hv⟩
      · exact fun hx => hx.1

/-- C10: the constructed and stored message carries an `imageUrl` exactly
when the request supplied a non-empty one; an absent, null or empty
`imageUrl` is normalized away. -/
theorem imageUrl_normalized (r : SendReq) (store : Option (List ChatMessage))
    (h : r.Valid) :
    (sendMessage r store).1 = .ok (mkMessage r)
    ∧ ((r.imageUrl = none ∨ r.imageUrl = some "") → (mkMessage r).imageUrl = none)
    ∧ (∀ s : String, (mkMessage r).imageUrl = some s ↔ (r.imageUrl = some s ∧ s ≠ "")) := by
  refine ⟨?_, ?_, ?_⟩
  · cases store with
    | none => rw [sendMessage_none h, sendMessage_valid h]
    | some l => rw [sendMessage_valid h l]
  · intro hcase
    show normalizeImageUrl r.imageUrl = none
    rcases hcase with hc | hc <;> rw [hc] <;> rfl
  · intro s
    show normalizeImageUrl r.imageUrl = some s ↔ _
    exact normalizeImageUrl_eq_some r.imageUrl s

/-- Witness for C10 at a request supplying an empty `imageUrl`. -/
theorem imageUrl_normalized_witness :
    ((sendMessage { wReq with imageUrl := some "" } none).1
        = .ok (mkMessage { wReq with imageUrl := some "" })
    ∧ (({ wReq with imageUrl := some "" } : SendReq).imageUrl = none
        ∨ ({ wReq with imageUrl := some "" } : SendReq).imageUrl = some "" →
        (mkMessage { wReq with imageUrl := some "" }).imageUrl = none)
    ∧ (∀ s : String, (mkMessage { wReq with imageUrl := some "" }).imageUrl = some s ↔
        (({ wReq with imageUrl := some "" } : SendReq).imageUrl = some s ∧ s ≠ ""))) :=
  imageUrl_normalized { wReq with imageUrl := some "" } none (by decide)

/-- C5 counterexample: a request carrying a non-empty `imageUrl` but an
empty `message` body is rejected by the `send-message` handler with the
validation error, with the store untouched — the claim that it is accepted
fails. -/
theorem image_only_request_rejected :
    sendMessage
      { roomId := "general", username := "alice", userId := "u1",
        message := "", imageUrl := some "https://img", now := 1000 } none
      = (.error "Missing required fields", none) := by
  unfold sendMessage
  rw [if_pos (by tauto)]

/-- C5 amended: `send-message` requires a non-empty body regardless of
`imageUrl` — an image-only request is rejected with the validation error
and the store is untouched — and succeeds exactly when `roomId`,
`username`, `userId` and `message` are all non-empty. -/
theorem append_requires_nonempty_body (r : SendReq) (store : Option (List ChatMessage)) :
    (r.message = "" → sendMessage r store = (.error "Missing required fields", store))
    ∧ (r.Valid → (sendMessage r store).1 = .ok (mkMessage r)) := by
  constructor
  · intro h
    unfold sendMessage
    rw [if_pos (by tauto)]
  · intro h
    cases store with
    | none => rw [sendMessage_none h, sendMessage_valid h]
    | some l => rw [sendMessage_valid h l]

/-- Witness for the amended C5 at an image-only concrete request. -/
theorem append_requires_nonempty_body_witness :
    ((({ wReq with message := "" } : SendReq).message = "" →
      sendMessage { wReq with message := "" } none
        = (.error "Missing required fields", none))
    ∧ (({ wReq with message := "" } : SendReq).Valid →
      (sendMessage { wReq with message := "" } none).1
        = .ok (mkMessage { wReq with message := "" }))) :=
  append_requires_nonempty_body { wReq with message := "" } none

end ChatApp
